import Mathlib

/-!
Shallow embedding of the core of the "Would You Rather" voting application:
the vote ledger (Vote model and vote controller), the question vote-stats
aggregation (Question model), the user progression engine (User model), the
badge evaluator (Badge model) and the socket presence/broadcast handlers
(socketHandler).  Machine numbers are modelled as `Nat`/`Int`/`ℚ`,
timestamps as milliseconds (`Int`), database collections as lists, and
fallible controller code as `Except`.
-/

namespace WYR

/-- JavaScript `Math.round` on a non-negative rational: round half toward
positive infinity, `Math.round x = ⌊x + 1/2⌋`. -/
def jsRound (x : ℚ) : ℤ := ⌊x + 1/2⌋

/-- The vote choice enum `['optionA', 'optionB']` of the Vote and Question
schemas. -/
inductive Choice
  | optionA
  | optionB
deriving Repr, DecidableEq

/-- One entry of the `votes.optionA` / `votes.optionB` arrays embedded in a
Question document (`{ userId, votedAt, decisionTime }`). -/
structure EmbeddedVote where
  userId : Nat
  votedAt : Int
  decisionTime : Nat
deriving Repr, DecidableEq

/-- The `stats` subdocument of a Question (Question.js): totals, rounded
percentages, engagement rate, average decision time and counters. -/
structure QuestionStats where
  totalVotes : Nat
  optionAPercentage : ℤ
  optionBPercentage : ℤ
  engagementRate : ℚ
  averageDecisionTime : ℚ
  views : Nat
  shares : Nat
  comments : Nat
deriving Repr, DecidableEq

/-- A Question document: the embedded per-option vote arrays, the derived
stats, and the availability flags checked by the vote controller
(`isActive` and `moderation.status === 'approved'`). -/
structure Question where
  votesA : List EmbeddedVote
  votesB : List EmbeddedVote
  stats : QuestionStats
  isActive : Bool
  moderationApproved : Bool
deriving Repr, DecidableEq

/-- `questionSchema.methods.updateStats` (Question.js lines 281-305):
recompute `totalVotes`, both percentages via `Math.round`, the average
decision time and the engagement rate from the embedded vote arrays.  When
`totalVotes > 0` and `views = 0` the engagement rate is left unchanged,
exactly as in the source. -/
def updateStats (q : Question) : Question :=
  let totalVotes := q.votesA.length + q.votesB.length
  if totalVotes > 0 then
    let totalDecisionTime : Nat := (q.votesA ++ q.votesB).foldl (fun sum v => sum + v.decisionTime) 0
    { q with stats :=
      { q.stats with
        totalVotes := totalVotes
        optionAPercentage := jsRound ((q.votesA.length : ℚ) / (totalVotes : ℚ) * 100)
        optionBPercentage := jsRound ((q.votesB.length : ℚ) / (totalVotes : ℚ) * 100)
        averageDecisionTime := (totalDecisionTime : ℚ) / (totalVotes : ℚ)
        engagementRate := if q.stats.views > 0 then
            (totalVotes : ℚ) / (q.stats.views : ℚ) * 100
          else q.stats.engagementRate } }
  else
    { q with stats :=
      { q.stats with
        totalVotes := totalVotes
        optionAPercentage := 0
        optionBPercentage := 0
        averageDecisionTime := 0
        engagementRate := 0 } }

/-- `questionSchema.methods.hasUserVoted` (Question.js lines 221-229):
which option, if any, the user has an embedded vote for. -/
def Question.hasUserVoted (q : Question) (userId : Nat) : Option Choice :=
  if q.votesA.any (fun v => v.userId == userId) then some .optionA
  else if q.votesB.any (fun v => v.userId == userId) then some .optionB
  else none

/-- `questionSchema.methods.addVote` (Question.js lines 232-258): throws if
the user already voted, otherwise pushes the vote entry onto the chosen
option's array and recomputes the stats.  The throw is modelled as
`Except.error`; the invalid-option throw is unrepresentable because
`Choice` is the schema's enum. -/
def Question.addVote (q : Question) (userId : Nat) (option : Choice)
    (now : Int) (decisionTime : Nat) : Except String Question :=
  if (q.hasUserVoted userId).isSome then
    .error "User has already voted on this question"
  else
    let voteData : EmbeddedVote := ⟨userId, now, decisionTime⟩
    let q1 := match option with
      | .optionA => { q with votesA := q.votesA ++ [voteData] }
      | .optionB => { q with votesB := q.votesB ++ [voteData] }
    .ok (updateStats q1)

/-- `questionSchema.methods.removeVote` (Question.js lines 261-278): filter
the user out of both option arrays and recompute the stats. -/
def Question.removeVote (q : Question) (userId : Nat) : Question :=
  updateStats
    { q with
      votesA := q.votesA.filter (fun v => v.userId != userId)
      votesB := q.votesB.filter (fun v => v.userId != userId) }

/-- The `stats` subdocument of a User (User.js lines 71-108): cumulative
gamification state.  `lastActivity` is a millisecond timestamp. -/
structure UserStats where
  questionsCreated : Nat
  votesCount : Nat
  points : Nat
  currentStreak : Nat
  longestStreak : Nat
  lastActivity : Int
  badges : List Nat
  level : Nat
  experience : Nat
deriving Repr, DecidableEq

/-- The return value of `addPoints`: `{ levelUp, newLevel }`. -/
structure PointsResult where
  levelUp : Bool
  newLevel : Nat
deriving Repr, DecidableEq

/-- The level formula used by `addPoints`:
`level = floor(sqrt(experience / 100)) + 1`.  For a natural `experience`,
`floor (sqrt (experience / 100))` over the reals equals
`Nat.sqrt (experience / 100)` with truncating natural division. -/
def levelOfExperience (experience : Nat) : Nat :=
  Nat.sqrt (experience / 100) + 1

/-- `userSchema.methods.addPoints` (User.js lines 208-221): add `points` to
both `points` and `experience`, recompute the level from the formula, and
raise the stored level only when the recomputed level exceeds it.  Returns
the updated stats together with `{ levelUp, newLevel }`. -/
def UserStats.addPoints (s : UserStats) (points : Nat) : UserStats × PointsResult :=
  let points1 := s.points + points
  let experience1 := s.experience + points
  let newLevel := levelOfExperience experience1
  if newLevel > s.level then
    ({ s with points := points1, experience := experience1, level := newLevel },
     ⟨true, newLevel⟩)
  else
    ({ s with points := points1, experience := experience1 },
     ⟨false, newLevel⟩)

/-- Milliseconds per day, the `1000 * 60 * 60 * 24` divisor of
`updateStreak`. -/
def msPerDay : Int := 1000 * 60 * 60 * 24

/-- The calendar day number of a millisecond timestamp: the effect of
`setHours(0,0,0,0)` truncation followed by division by `msPerDay`
(floor division, as `Math.floor` on a possibly negative quotient). -/
def dayOf (t : Int) : Int := Int.fdiv t msPerDay

/-- `userSchema.methods.updateStreak` (User.js lines 224-249): compare the
calendar day of `lastActivity` with the current calendar day.  A 0-day
difference returns early with the streak unchanged (and, as in the source,
without touching `lastActivity`); a 1-day difference increments the streak
and raises `longestStreak` when exceeded; any other difference resets the
streak to 1.  In the latter two cases `lastActivity` is set to `now`.
Returns the updated stats and the resulting `currentStreak`. -/
def UserStats.updateStreak (s : UserStats) (now : Int) : UserStats × Nat :=
  let daysDiff := dayOf now - dayOf s.lastActivity
  if daysDiff = 0 then
    (s, s.currentStreak)
  else if daysDiff = 1 then
    let streak := s.currentStreak + 1
    let longest := if streak > s.longestStreak then streak else s.longestStreak
    ({ s with currentStreak := streak, longestStreak := longest, lastActivity := now },
     streak)
  else
    ({ s with currentStreak := 1, lastActivity := now }, 1)

/-- A document of the Vote collection (Vote.js schema): the fields the core
operations read.  `createdAt` comes from `timestamps: true`. -/
structure VoteRecord where
  userId : Nat
  questionId : Nat
  choice : Choice
  decisionTime : Nat
  confidence : Nat
  createdAt : Int
deriving Repr, DecidableEq

/-- The error outcomes of the vote controller and of the storage layer.
`questionNotFound`, `questionUnavailable`, `alreadyVoted`, `noVoteToChange`
and `editWindowExpired` are the `AppError`s raised by voteController;
`duplicateKey` is the storage conflict produced by the unique compound
index `{ userId: 1, questionId: 1 }` of Vote.js line 53; `addVoteFailed`
is the uncaught throw of `question.addVote`; `userNotFound` stands for the
crash the source would incur on a missing user document. -/
inductive AppErr
  | questionNotFound
  | questionUnavailable
  | alreadyVoted
  | duplicateKey
  | addVoteFailed
  | userNotFound
  | noVoteToChange
  | editWindowExpired
deriving Repr, DecidableEq

/-- `Vote.create` seen through the storage layer: the unique compound index
on `(userId, questionId)` (Vote.js line 53) makes the insert itself fail
with a duplicate-key conflict when a record for the pair already exists,
independently of any application-level check. -/
def voteCreate (votes : List VoteRecord) (v : VoteRecord) :
    Except AppErr (List VoteRecord) :=
  if votes.any (fun w => w.userId == v.userId && w.questionId == v.questionId) then
    .error .duplicateKey
  else
    .ok (votes ++ [v])

/-- Lookup by key in an association list: `findById` on a collection keyed
by document id. -/
def lookupA {α : Type} : List (Nat × α) → Nat → Option α
  | [], _ => none
  | p :: l, k => if p.1 = k then some p.2 else lookupA l k

/-- Replace the value stored under a key: `document.save()` writing back a
fetched document. -/
def updateA {α : Type} (l : List (Nat × α)) (k : Nat) (v : α) : List (Nat × α) :=
  l.map (fun p => if p.1 = k then (k, v) else p)

/-- The `requirements` subdocument of a Badge (Badge.js lines 46-77).  The
`type` and `timeframe` fields are strings exactly as stored;
`consecutive` is `additionalCriteria.consecutive` (absent reads as
false through the optional chaining of the source). -/
structure BadgeRequirements where
  type : String
  threshold : Nat
  timeframe : String
  consecutive : Bool
deriving Repr, DecidableEq

/-- A Badge document: identifier, activity flag, requirement descriptor,
reward points, unlock conditions and award statistics (Badge.js). -/
structure BadgeDoc where
  id : Nat
  isActive : Bool
  requirements : BadgeRequirements
  points : Nat
  startDate : Option Int
  endDate : Option Int
  requiredBadges : List Nat
  excludedBadges : List Nat
  statTotalEarned : Nat
  statFirstEarned : Option Int
  statLastEarned : Option Int
  earnedBy : List (Nat × Int)
deriving Repr, DecidableEq

/-- The slice of the database read and written by a badge-evaluation pass
for one fixed user: that user's stats document and the Badge collection.
The source re-fetches both documents on every call; the sequential
embedding threads them instead. -/
structure BadgeState where
  user : UserStats
  badges : List BadgeDoc
deriving Repr, DecidableEq

/-- `Badge.findById` on the badge collection. -/
def findBadge (s : BadgeState) (badgeId : Nat) : Option BadgeDoc :=
  s.badges.find? (fun b => b.id == badgeId)

/-- Environment for the external collaborators consulted by
`checkUserQualification`: `tfStart` is `getTimeframeStartDate` (a pure
function of the current wall-clock date, Badge.js lines 377-395), and the
three counters are the `countDocuments` queries over the Vote, Question
and ChatMessage collections for the fixed user, each taking the start
date. -/
structure CountEnv where
  tfStart : String → Int
  votesSince : Int → Nat
  questionsSince : Int → Nat
  messagesSince : Int → Nat

/-- The `switch (type)` of `checkUserQualification` (Badge.js lines
182-233) computing `currentValue`; `none` is the `default: return false`
branch for a requirement type that is none of the six recognized ones. -/
def requirementValue (env : CountEnv) (user : UserStats) (req : BadgeRequirements) :
    Option Nat :=
  match req.type with
  | "vote_count" =>
      some (if req.timeframe == "all_time" then user.votesCount
            else env.votesSince (env.tfStart req.timeframe))
  | "question_count" =>
      some (if req.timeframe == "all_time" then user.questionsCreated
            else env.questionsSince (env.tfStart req.timeframe))
  | "streak_count" =>
      some (if req.consecutive then user.currentStreak else user.longestStreak)
  | "points_total" => some user.points
  | "level_reached" => some user.level
  | "social_actions" =>
      some (env.messagesSince
        (if req.timeframe != "all_time" then env.tfStart req.timeframe else 0))
  | _ => none

/-- `Badge.checkUserQualification` (Badge.js lines 141-236): false when
the badge is missing or inactive, already held, outside its unlock date
window, missing a required badge or blocked by an excluded badge; then
compares the requirement's current value against the threshold, with the
unrecognized-type default yielding false. -/
def checkUserQualification (env : CountEnv) (now : Int) (s : BadgeState)
    (badgeId : Nat) : Bool :=
  match findBadge s badgeId with
  | none => false
  | some badge =>
    if !badge.isActive then false
    else if s.user.badges.contains badgeId then false
    else if (match badge.startDate with | some d => decide (now < d) | none => false) then false
    else if (match badge.endDate with | some d => decide (d < now) | none => false) then false
    else if !(badge.requiredBadges.all (fun b => s.user.badges.contains b)) then false
    else if badge.excludedBadges.any (fun b => s.user.badges.contains b) then false
    else
      match requirementValue env s.user badge.requirements with
      | none => false
      | some v => decide (badge.requirements.threshold ≤ v)

/-- `Badge.awardToUser` (Badge.js lines 239-269): no-op returning false
when the badge is missing or already held; otherwise pushes the badge
onto the user's earned set, adds the badge's reward points, and updates
the badge's award statistics, returning true. -/
def awardToUser (s : BadgeState) (now : Int) (userId badgeId : Nat) :
    BadgeState × Bool :=
  match findBadge s badgeId with
  | none => (s, false)
  | some badge =>
    if s.user.badges.contains badgeId then (s, false)
    else
      let user1 := { s.user with
        badges := s.user.badges ++ [badgeId]
        points := s.user.points + badge.points }
      let badge1 := { badge with
        statTotalEarned := badge.statTotalEarned + 1
        statLastEarned := some now
        statFirstEarned := match badge.statFirstEarned with
          | none => some now
          | some d => some d
        earnedBy := badge.earnedBy ++ [(userId, now)] }
      (⟨user1, s.badges.map (fun b => if b.id = badgeId then badge1 else b)⟩, true)

/-- One iteration of the badge loop of `submitVote` (voteController):
check qualification and, when it holds, award and record the badge. -/
def badgePassStep (env : CountEnv) (now : Int) (userId : Nat)
    (acc : BadgeState × List Nat) (badgeId : Nat) : BadgeState × List Nat :=
  if checkUserQualification env now acc.1 badgeId then
    let res := awardToUser acc.1 now userId badgeId
    if res.2 then (res.1, acc.2 ++ [badgeId]) else (res.1, acc.2)
  else acc

/-- The badge loop run over a given list of badge ids, accumulating the
newly earned badges. -/
def runBadgePass (env : CountEnv) (now : Int) (userId : Nat)
    (s : BadgeState) (ids : List Nat) : BadgeState × List Nat :=
  ids.foldl (badgePassStep env now userId) (s, [])

/-- The badge-evaluation pass of `submitVote`: iterate over all badges
fetched by `Badge.find({ isActive: true })`. -/
def badgeAwardPass (env : CountEnv) (now : Int) (userId : Nat)
    (s : BadgeState) : BadgeState × List Nat :=
  runBadgePass env now userId s ((s.badges.filter (fun b => b.isActive)).map (fun b => b.id))

/-- The socket.io delivery targets used by the core: a per-question room
`question_<id>`, a per-user notification room `user_<id>`, and the global
broadcast of `socket.broadcast.emit`. -/
inductive Room
  | question (id : Nat)
  | user (id : Nat)
  | broadcast
deriving Repr, DecidableEq

/-- The server-to-client event payloads relevant to the claims. -/
inductive Payload
  | voteUpdate (questionId : Nat) (choice : Choice) (totalVotes : Nat)
      (optionAPercentage optionBPercentage : ℤ) (voter : Option Nat)
  | badgesEarned (badges : List Nat)
  | userTyping (userId : Nat) (isTyping : Bool)
  | userLeftRoom (userId : Nat)
  | userOffline (userId : Nat) (lastSeen : Int)
deriving Repr, DecidableEq

/-- One emitted event: its target, the connection excluded from delivery
(`socket.to(...)` / `socket.broadcast` exclude the emitting socket,
`io.to(...)` excludes nobody) and the payload. -/
structure Emit where
  room : Room
  exclude : Option Nat
  payload : Payload
deriving Repr, DecidableEq

/-- Delivery fan-out: the sockets of `roomMembers` that receive the event,
everyone except the excluded socket. -/
def Emit.recipients (e : Emit) (roomMembers : List Nat) : List Nat :=
  match e.exclude with
  | some sid => roomMembers.filter (fun m => m ≠ sid)
  | none => roomMembers

/-- The `typing_start` handler (socketHandler.js lines 130-139):
`socket.to(roomName).emit('user_typing', { ..., isTyping: true })`, which
excludes the emitting socket. -/
def handleTypingStart (userId socketId questionId : Nat) : Emit :=
  ⟨.question questionId, some socketId, .userTyping userId true⟩

/-- An entry of the in-memory `activeUsers` map (socketHandler.js lines
38-47): socket id, connection time, and current question room. -/
structure PresenceEntry where
  socketId : Nat
  connectedAt : Int
  currentRoom : Option Room
deriving Repr, DecidableEq

/-- The `disconnect` handler (socketHandler.js lines 269-290), in source
order: delete the user's entry from `activeUsers`, broadcast
`user_offline` with a fresh last-seen timestamp to everyone else, then
look the entry up again in the already-mutated map and emit
`user_left_room` to its room if it is still found. -/
def handleDisconnect (activeUsers : List (Nat × PresenceEntry))
    (userId socketId : Nat) (now : Int) :
    List (Nat × PresenceEntry) × List Emit :=
  let activeUsers1 := activeUsers.filter (fun p => p.1 ≠ userId)
  let offlineEmit : Emit := ⟨.broadcast, some socketId, .userOffline userId now⟩
  let leaveEmits : List Emit :=
    match lookupA activeUsers1 userId with
    | some entry =>
      match entry.currentRoom with
      | some room => [⟨room, some socketId, .userLeftRoom userId⟩]
      | none => []
    | none => []
  (activeUsers1, offlineEmit :: leaveEmits)

/-- The database state touched by the vote controller: the Vote
collection, and the Question and User collections as id-keyed maps,
plus the Badge collection. -/
structure AppState where
  votes : List VoteRecord
  questions : List (Nat × Question)
  users : List (Nat × UserStats)
  badges : List BadgeDoc
deriving Repr

/-- The successful-response data of `submitVote` together with the events
it emits. -/
structure SubmitOk where
  vote : VoteRecord
  pointsEarned : PointsResult
  streak : Nat
  earnedBadges : List Nat
  emits : List Emit
deriving Repr

/-- `submitVote` (voteController, src/unnamed/part_002 lines 9-106):
check the question exists and is active and approved; reject when a Vote
for `(userId, questionId)` already exists; create the Vote (the store
enforcing the unique index); add the vote to the question and recompute
its stats; increment the user's vote count, award the fixed 10 points,
update the streak; run the badge pass; then emit `vote_update` via
`io.to('question_<id>')` (no exclusion) and, when badges were earned,
`badges_earned` to the voter's personal room. -/
def submitVote (env : CountEnv) (st : AppState) (now : Int)
    (userId questionId : Nat) (choice : Choice)
    (decisionTime confidence : Nat) :
    Except AppErr (AppState × SubmitOk) :=
  match lookupA st.questions questionId with
  | none => .error .questionNotFound
  | some question =>
    if !(question.isActive && question.moderationApproved) then
      .error .questionUnavailable
    else if st.votes.any (fun w => w.userId == userId && w.questionId == questionId) then
      .error .alreadyVoted
    else
      let vote : VoteRecord := ⟨userId, questionId, choice, decisionTime, confidence, now⟩
      match voteCreate st.votes vote with
      | .error e => .error e
      | .ok votes1 =>
        match question.addVote userId choice now decisionTime with
        | .error _ => .error .addVoteFailed
        | .ok question1 =>
          match lookupA st.users userId with
          | none => .error .userNotFound
          | some user =>
            let user1 := { user with votesCount := user.votesCount + 1 }
            let (user2, pointsEarned) := user1.addPoints 10
            let (user3, newStreak) := user2.updateStreak now
            let (badgeState, earnedBadges) :=
              badgeAwardPass env now userId ⟨user3, st.badges⟩
            let emits : List Emit :=
              ⟨.question questionId, none,
                .voteUpdate questionId choice question1.stats.totalVotes
                  question1.stats.optionAPercentage
                  question1.stats.optionBPercentage (some userId)⟩ ::
              (if earnedBadges.isEmpty then [] else
                [⟨.user userId, none, .badgesEarned earnedBadges⟩])
            .ok ({ st with
                    votes := votes1
                    questions := updateA st.questions questionId question1
                    users := updateA st.users userId badgeState.user
                    badges := badgeState.badges },
                 ⟨vote, pointsEarned, newStreak, earnedBadges, emits⟩)

/-- The `CHANGE_LIMIT` of `changeVote`: 5 minutes in milliseconds. -/
def changeLimit : Int := 5 * 60 * 1000

/-- The successful-response data of `changeVote` together with the events
it emits. -/
structure ChangeOk where
  vote : VoteRecord
  emits : List Emit
deriving Repr

/-- `changeVote` (voteController, src/unnamed/part_002 lines 109-163):
fail when no Vote exists for the pair; fail when the vote is older than
`changeLimit`; fetch the question; remove the user's old vote from it and
add the new choice (each recomputing the stats; `addVote` is called
without a decision time, so the embedded entry gets the default 0);
update the Vote record (`decisionTime` keeps the old value when the new
one is absent or 0, per the `||` fallback); emit `vote_update` via
`io.to(...)` with the recomputed stats. -/
def changeVote (st : AppState) (now : Int) (userId questionId : Nat)
    (choice : Choice) (newDecisionTime : Option Nat) :
    Except AppErr (AppState × ChangeOk) :=
  match st.votes.find? (fun w => w.userId == userId && w.questionId == questionId) with
  | none => .error .noVoteToChange
  | some existingVote =>
    if changeLimit < now - existingVote.createdAt then
      .error .editWindowExpired
    else
      match lookupA st.questions questionId with
      | none => .error .questionNotFound
      | some question =>
        let question1 := question.removeVote userId
        match question1.addVote userId choice now 0 with
        | .error _ => .error .addVoteFailed
        | .ok question2 =>
          let newVote := { existingVote with
            choice := choice
            decisionTime := match newDecisionTime with
              | some d => if d = 0 then existingVote.decisionTime else d
              | none => existingVote.decisionTime }
          let votes1 := st.votes.map (fun w =>
            if w.userId = userId ∧ w.questionId = questionId then newVote else w)
          let emits : List Emit :=
            [⟨.question questionId, none,
              .voteUpdate questionId choice question2.stats.totalVotes
                question2.stats.optionAPercentage
                question2.stats.optionBPercentage none⟩]
          .ok ({ st with
                  votes := votes1
                  questions := updateA st.questions questionId question2 },
               ⟨newVote, emits⟩)

/-- One vote-submission request: the parameters of a `submitVote` call
together with its arrival time. -/
structure SubmitReq where
  userId : Nat
  questionId : Nat
  choice : Choice
  decisionTime : Nat
  confidence : Nat
  now : Int
deriving Repr

/-- Apply one submission request: on error the database state is
unchanged (the controller mutates nothing before responding with the
error). -/
def applySubmit (env : CountEnv) (st : AppState) (r : SubmitReq) : AppState :=
  match submitVote env st r.now r.userId r.questionId r.choice r.decisionTime r.confidence with
  | .ok (st1, _) => st1
  | .error _ => st

/-- Apply a sequence of submission requests in order. -/
def submitMany (env : CountEnv) (st : AppState) (reqs : List SubmitReq) : AppState :=
  reqs.foldl (applySubmit env) st

/-- The number of Vote records stored for a given (user, question) pair. -/
def pairCount (votes : List VoteRecord) (u q : Nat) : Nat :=
  votes.countP (fun w => w.userId == u && w.questionId == q)

/-- The one-vote-per-user-per-question invariant over the Vote
collection. -/
def OneVotePerPair (votes : List VoteRecord) : Prop :=
  ∀ u q, pairCount votes u q ≤ 1

/-- The six requirement types recognized by the `switch` of
`checkUserQualification`; every other string reaches the `default`
branch. -/
def recognizedRequirementTypes : List String :=
  ["vote_count", "question_count", "streak_count",
   "points_total", "level_reached", "social_actions"]

/-! Concrete sample states used to instantiate the theorems. -/

/-- A count environment in which every external counter is zero. -/
def env0 : CountEnv := ⟨fun _ => 0, fun _ => 0, fun _ => 0, fun _ => 0⟩

/-- The schema-default question stats. -/
def emptyStats : QuestionStats := ⟨0, 0, 0, 0, 0, 0, 0, 0⟩

/-- A fresh, active, approved question with no votes. -/
def freshQuestion : Question := ⟨[], [], emptyStats, true, true⟩

/-- The schema-default user stats (level 1, no activity). -/
def defaultUser : UserStats := ⟨0, 0, 0, 0, 0, 0, [], 1, 0⟩

/-- A question holding one optionA vote (user 1) and seven optionB votes
(users 2 to 8), all with decision time 0. -/
def eightVoteQuestion : Question :=
  ⟨[⟨1, 0, 0⟩],
   [⟨2, 0, 0⟩, ⟨3, 0, 0⟩, ⟨4, 0, 0⟩, ⟨5, 0, 0⟩, ⟨6, 0, 0⟩, ⟨7, 0, 0⟩, ⟨8, 0, 0⟩],
   ⟨8, 13, 88, 0, 0, 0, 0, 0⟩, true, true⟩

/-- A question holding one optionA vote (user 1) and one optionB vote
(user 2). -/
def twoVoteQuestion : Question :=
  ⟨[⟨1, 0, 0⟩], [⟨2, 0, 0⟩], ⟨2, 50, 50, 0, 0, 0, 0, 0⟩, true, true⟩

/-- An approved question on which user 1 has already voted optionA. -/
def votedQuestion : Question :=
  ⟨[⟨1, 0, 0⟩], [], ⟨1, 100, 0, 0, 0, 0, 0, 0⟩, true, true⟩

/-- The stored Vote of user 1 on question 1, created at time 0. -/
def vote11 : VoteRecord := ⟨1, 1, .optionA, 0, 3, 0⟩

/-- A state in which user 1 has voted optionA on question 1. -/
def votedState : AppState :=
  ⟨[vote11], [(1, votedQuestion)],
   [(1, { defaultUser with votesCount := 1, points := 10, experience := 10 })], []⟩

/-- A state with a fresh question 1 and user 1 who has not voted. -/
def freshState : AppState :=
  ⟨[], [(1, freshQuestion)], [(1, defaultUser)], []⟩

/-- An active vote-count badge (id 1, threshold 1, all-time) worth 25
points. -/
def voteCountBadge : BadgeDoc :=
  ⟨1, true, ⟨"vote_count", 1, "all_time", false⟩, 25, none, none, [], [], 0, none, none, []⟩

/-- An active badge (id 2) whose requirement type `time_based` is outside
the six types recognized by the qualification switch. -/
def timeBasedBadge : BadgeDoc :=
  ⟨2, true, ⟨"time_based", 1, "all_time", false⟩, 10, none, none, [], [], 0, none, none, []⟩

/-- A badge state in which user (votesCount 1) qualifies for
`voteCountBadge` and holds nothing. -/
def qualifyingBadgeState : BadgeState :=
  ⟨{ defaultUser with votesCount := 1 }, [voteCountBadge]⟩

/-- A presence entry: socket 7, connected at 0, currently in the room of
question 5. -/
def inRoomEntry : PresenceEntry := ⟨7, 0, some (.question 5)⟩

/-- A user with a 3-day streak whose last activity is at the epoch
midnight (time 0). -/
def streakUser : UserStats := ⟨0, 0, 0, 3, 3, 0, [], 1, 0⟩

/-- A badge state containing only the badge with the unrecognized
requirement type. -/
def timeBasedState : BadgeState := ⟨defaultUser, [timeBasedBadge]⟩

/-! Theorems. -/

theorem jsRound_nonneg (x : ℚ) (hx : 0 ≤ x) : 0 ≤ jsRound x := by
  have h : ((0 : ℤ) : ℚ) ≤ x + 1/2 := by push_cast; linarith
  exact Int.le_floor.mpr h

theorem jsRound_le_100 (x : ℚ) (hx : x ≤ 100) : jsRound x ≤ 100 := by
  have h : x + 1/2 < ((101 : ℤ) : ℚ) := by push_cast; linarith
  have h2 := Int.floor_lt.mpr h
  unfold jsRound
  omega

theorem jsRound_pair (x y : ℚ) (h : x + y = 100) :
    jsRound x + jsRound y = 100 ∨ jsRound x + jsRound y = 101 := by
  have hx1 : ((jsRound x : ℤ) : ℚ) ≤ x + 1/2 := Int.floor_le _
  have hy1 : ((jsRound y : ℤ) : ℚ) ≤ y + 1/2 := Int.floor_le _
  have hx2 : x + 1/2 < (jsRound x : ℚ) + 1 := Int.lt_floor_add_one _
  have hy2 : y + 1/2 < (jsRound y : ℚ) + 1 := Int.lt_floor_add_one _
  have hle : jsRound x + jsRound y ≤ 101 := by
    have : ((jsRound x + jsRound y : ℤ) : ℚ) ≤ 101 := by push_cast; linarith
    exact_mod_cast this
  have hge : 99 < jsRound x + jsRound y := by
    have : (99 : ℚ) < ((jsRound x + jsRound y : ℤ) : ℚ) := by push_cast; linarith
    exact_mod_cast this
  omega

theorem updateStats_percentage_spec (q0 : Question) :
    ((updateStats q0).stats.totalVotes = 0 →
      (updateStats q0).stats.optionAPercentage = 0 ∧
      (updateStats q0).stats.optionBPercentage = 0) ∧
    (0 < (updateStats q0).stats.totalVotes →
      ((updateStats q0).stats.optionAPercentage + (updateStats q0).stats.optionBPercentage = 100 ∨
       (updateStats q0).stats.optionAPercentage + (updateStats q0).stats.optionBPercentage = 101) ∧
      (updateStats q0).stats.optionAPercentage
        = jsRound (((updateStats q0).votesA.length : ℚ) / ((updateStats q0).stats.totalVotes : ℚ) * 100) ∧
      (updateStats q0).stats.optionBPercentage
        = jsRound (((updateStats q0).votesB.length : ℚ) / ((updateStats q0).stats.totalVotes : ℚ) * 100)) ∧
    (0 ≤ (updateStats q0).stats.optionAPercentage ∧
     (updateStats q0).stats.optionAPercentage ≤ 100 ∧
     0 ≤ (updateStats q0).stats.optionBPercentage ∧
     (updateStats q0).stats.optionBPercentage ≤ 100) ∧
    (updateStats q0).stats.totalVotes
      = (updateStats q0).votesA.length + (updateStats q0).votesB.length := by
  by_cases h : 0 < q0.votesA.length + q0.votesB.length
  · have heq : updateStats q0 = { q0 with stats :=
      { q0.stats with
        totalVotes := q0.votesA.length + q0.votesB.length
        optionAPercentage :=
          jsRound ((q0.votesA.length : ℚ) / ((q0.votesA.length + q0.votesB.length : ℕ) : ℚ) * 100)
        optionBPercentage :=
          jsRound ((q0.votesB.length : ℚ) / ((q0.votesA.length + q0.votesB.length : ℕ) : ℚ) * 100)
        averageDecisionTime :=
          (((q0.votesA ++ q0.votesB).foldl (fun sum v => sum + v.decisionTime) 0 : ℕ) : ℚ)
            / ((q0.votesA.length + q0.votesB.length : ℕ) : ℚ)
        engagementRate := if q0.stats.views > 0 then
            ((q0.votesA.length + q0.votesB.length : ℕ) : ℚ) / (q0.stats.views : ℚ) * 100
          else q0.stats.engagementRate } } := by
      unfold updateStats
      rw [if_pos h]
    have hd : (0 : ℚ) < ((q0.votesA.length + q0.votesB.length : ℕ) : ℚ) := by
      exact_mod_cast h
    have hne : ((q0.votesA.length : ℚ) + (q0.votesB.length : ℚ)) ≠ 0 := by
      have h0 : (0 : ℚ) < (q0.votesA.length : ℚ) + (q0.votesB.length : ℚ) := by
        exact_mod_cast h
      exact ne_of_gt h0
    have hsum : (q0.votesA.length : ℚ) / ((q0.votesA.length + q0.votesB.length : ℕ) : ℚ) * 100
        + (q0.votesB.length : ℚ) / ((q0.votesA.length + q0.votesB.length : ℕ) : ℚ) * 100 = 100 := by
      push_cast
      field_simp
      ring
    have hA0 : (0 : ℚ) ≤ (q0.votesA.length : ℚ) / ((q0.votesA.length + q0.votesB.length : ℕ) : ℚ) * 100 := by
      positivity
    have hB0 : (0 : ℚ) ≤ (q0.votesB.length : ℚ) / ((q0.votesA.length + q0.votesB.length : ℕ) : ℚ) * 100 := by
      positivity
    have hA100 : (q0.votesA.length : ℚ) / ((q0.votesA.length + q0.votesB.length : ℕ) : ℚ) * 100 ≤ 100 := by
      rw [div_mul_eq_mul_div, div_le_iff₀ hd]
      push_cast
      nlinarith [Nat.cast_nonneg (α := ℚ) q0.votesB.length]
    have hB100 : (q0.votesB.length : ℚ) / ((q0.votesA.length + q0.votesB.length : ℕ) : ℚ) * 100 ≤ 100 := by
      rw [div_mul_eq_mul_div, div_le_iff₀ hd]
      push_cast
      nlinarith [Nat.cast_nonneg (α := ℚ) q0.votesA.length]
    rw [heq]
    dsimp only
    refine ⟨fun h0 => absurd h0 (by omega), fun _ => ⟨jsRound_pair _ _ hsum, rfl, rfl⟩,
      ⟨jsRound_nonneg _ hA0, jsRound_le_100 _ hA100,
       jsRound_nonneg _ hB0, jsRound_le_100 _ hB100⟩, rfl⟩
  · have heq : updateStats q0 = { q0 with stats :=
      { q0.stats with
        totalVotes := q0.votesA.length + q0.votesB.length
        optionAPercentage := 0
        optionBPercentage := 0
        averageDecisionTime := 0
        engagementRate := 0 } } := by
      unfold updateStats
      rw [if_neg h]
    rw [heq]
    dsimp only
    exact ⟨fun _ => ⟨rfl, rfl⟩, fun h0 => absurd h0 (by omega), by norm_num, rfl⟩

/-- C2 (corrected): after an add-vote or remove-vote operation, the stored
percentages are `Math.round(count/total*100)` for each option and lie in
[0, 100]; they are both 0 when `totalVotes = 0`; and when
`totalVotes > 0` their sum is 100 or 101 (101 exactly in the half-way
rounding case), not always 100 as claimed. -/
theorem C2_percentages_after_vote_ops
    (q q' : Question) (userId : Nat) (choice : Choice) (now : Int) (dt : Nat)
    (hop : Question.addVote q userId choice now dt = .ok q' ∨
           q' = Question.removeVote q userId) :
    (q'.stats.totalVotes = 0 →
      q'.stats.optionAPercentage = 0 ∧ q'.stats.optionBPercentage = 0) ∧
    (0 < q'.stats.totalVotes →
      (q'.stats.optionAPercentage + q'.stats.optionBPercentage = 100 ∨
       q'.stats.optionAPercentage + q'.stats.optionBPercentage = 101) ∧
      q'.stats.optionAPercentage
        = jsRound ((q'.votesA.length : ℚ) / (q'.stats.totalVotes : ℚ) * 100) ∧
      q'.stats.optionBPercentage
        = jsRound ((q'.votesB.length : ℚ) / (q'.stats.totalVotes : ℚ) * 100)) ∧
    (0 ≤ q'.stats.optionAPercentage ∧ q'.stats.optionAPercentage ≤ 100 ∧
     0 ≤ q'.stats.optionBPercentage ∧ q'.stats.optionBPercentage ≤ 100) ∧
    q'.stats.totalVotes = q'.votesA.length + q'.votesB.length := by
  rcases hop with hop | hop
  · by_cases hv : (q.hasUserVoted userId).isSome
    · simp [Question.addVote, hv] at hop
    · cases choice <;> simp only [Question.addVote, hv, Bool.false_eq_true,
        if_false, Except.ok.injEq] at hop <;>
        (rw [← hop]; exact updateStats_percentage_spec _)
  · rw [hop]
    exact updateStats_percentage_spec _

/-- C2 counterexample: on a question with one optionA vote and seven
optionB votes (a vote-mutating operation included), the stored
percentages are 13 and 88, summing to 101, not 100, while
`totalVotes = 8 > 0`. -/
theorem C2_counterexample :
    0 < (Question.removeVote eightVoteQuestion 999).stats.totalVotes ∧
    (Question.removeVote eightVoteQuestion 999).stats.optionAPercentage
      + (Question.removeVote eightVoteQuestion 999).stats.optionBPercentage = 101 ∧
    ¬ ((Question.removeVote eightVoteQuestion 999).stats.optionAPercentage
      + (Question.removeVote eightVoteQuestion 999).stats.optionBPercentage = 100) := by
  have hA : (Question.removeVote eightVoteQuestion 999).stats.optionAPercentage = 13 := by
    simp [Question.removeVote, updateStats, eightVoteQuestion, jsRound]
    norm_num [Int.floor_eq_iff]
  have hB : (Question.removeVote eightVoteQuestion 999).stats.optionBPercentage = 88 := by
    simp [Question.removeVote, updateStats, eightVoteQuestion, jsRound]
    norm_num [Int.floor_eq_iff]
  have hT : (Question.removeVote eightVoteQuestion 999).stats.totalVotes = 8 := by
    simp [Question.removeVote, updateStats, eightVoteQuestion]
  exact ⟨by omega, by omega, by omega⟩

/-- C2 witness: the amended theorem applied to removing a non-voter from
the two-vote question, where the recomputed percentages sum to 100 or
101. -/
theorem C2_witness :
    (Question.removeVote twoVoteQuestion 999).stats.optionAPercentage
      + (Question.removeVote twoVoteQuestion 999).stats.optionBPercentage = 100 ∨
    (Question.removeVote twoVoteQuestion 999).stats.optionAPercentage
      + (Question.removeVote twoVoteQuestion 999).stats.optionBPercentage = 101 := by
  have h := C2_percentages_after_vote_ops twoVoteQuestion
    (Question.removeVote twoVoteQuestion 999) 999 .optionA 0 0 (Or.inr rfl)
  refine (h.2.1 ?_).1
  simp [Question.removeVote, updateStats, twoVoteQuestion]

theorem levelOfExperience_mono {e1 e2 : Nat} (h : e1 ≤ e2) :
    levelOfExperience e1 ≤ levelOfExperience e2 := by
  unfold levelOfExperience
  have := Nat.sqrt_le_sqrt (Nat.div_le_div_right (c := 100) h)
  omega

/-- C3: on a level-consistent state, `addPoints p` adds `p` to both
`points` and `experience`, keeps the stored level equal to
`floor(sqrt(experience / 100)) + 1`, and reports the new level together
with whether the stored level rose. -/
theorem C3_addPoints_level (s : UserStats) (p : Nat)
    (hlevel : s.level = levelOfExperience s.experience) :
    (s.addPoints p).1.points = s.points + p ∧
    (s.addPoints p).1.experience = s.experience + p ∧
    (s.addPoints p).1.level = levelOfExperience (s.experience + p) ∧
    (s.addPoints p).2.newLevel = levelOfExperience (s.experience + p) ∧
    ((s.addPoints p).2.levelUp = true ↔ s.level < (s.addPoints p).1.level) := by
  by_cases hgt : s.level < levelOfExperience (s.experience + p)
  · have heq : s.addPoints p =
        ({ s with
            points := s.points + p
            experience := s.experience + p
            level := levelOfExperience (s.experience + p) },
         ⟨true, levelOfExperience (s.experience + p)⟩) := by
      unfold UserStats.addPoints
      rw [if_pos hgt]
    rw [heq]
    exact ⟨rfl, rfl, rfl, rfl, by simpa using hgt⟩
  · have hle : levelOfExperience (s.experience + p) = s.level := by
      have h1 : levelOfExperience s.experience ≤ levelOfExperience (s.experience + p) :=
        levelOfExperience_mono (Nat.le_add_right _ _)
      omega
    have heq : s.addPoints p =
        ({ s with
            points := s.points + p
            experience := s.experience + p },
         ⟨false, levelOfExperience (s.experience + p)⟩) := by
      unfold UserStats.addPoints
      rw [if_neg hgt]
    rw [heq]
    exact ⟨rfl, rfl, hle.symm, rfl, by simp⟩

/-- C3 witness: the theorem applied to the default user gaining the fixed
10 vote points. -/
theorem C3_witness :
    (defaultUser.addPoints 10).1.points = defaultUser.points + 10 ∧
    (defaultUser.addPoints 10).1.experience = defaultUser.experience + 10 ∧
    (defaultUser.addPoints 10).1.level = levelOfExperience (defaultUser.experience + 10) := by
  have h := C3_addPoints_level defaultUser 10 (by decide)
  exact ⟨h.1, h.2.1, h.2.2.1⟩

/-- C4 (corrected): `updateStreak` compares calendar days.  A 0-day gap
leaves the whole stats record unchanged, including `lastActivity`
(contrary to the claim, which says `lastActivity` is always set to now);
a 1-day gap increments the streak, raising `longestStreak` when
exceeded, and sets `lastActivity` to now; a gap of more than one day
resets the streak to 1 and sets `lastActivity` to now.  The returned
value is the resulting `currentStreak`. -/
theorem C4_updateStreak_spec (s : UserStats) (now : Int) :
    (dayOf now = dayOf s.lastActivity →
      (s.updateStreak now).1 = s ∧ (s.updateStreak now).2 = s.currentStreak) ∧
    (dayOf now - dayOf s.lastActivity = 1 →
      (s.updateStreak now).1.currentStreak = s.currentStreak + 1 ∧
      (s.updateStreak now).1.longestStreak =
        (if s.longestStreak < s.currentStreak + 1 then s.currentStreak + 1
         else s.longestStreak) ∧
      (s.updateStreak now).1.lastActivity = now ∧
      (s.updateStreak now).2 = s.currentStreak + 1) ∧
    (1 < dayOf now - dayOf s.lastActivity →
      (s.updateStreak now).1.currentStreak = 1 ∧
      (s.updateStreak now).1.lastActivity = now ∧
      (s.updateStreak now).2 = 1) ∧
    (s.updateStreak now).2 = (s.updateStreak now).1.currentStreak := by
  by_cases h0 : dayOf now - dayOf s.lastActivity = 0
  · have heq : s.updateStreak now = (s, s.currentStreak) := by
      unfold UserStats.updateStreak
      rw [if_pos h0]
    rw [heq]
    exact ⟨fun _ => ⟨rfl, rfl⟩, fun h1 => absurd h1 (by omega),
      fun h1 => absurd h1 (by omega), rfl⟩
  · by_cases h1 : dayOf now - dayOf s.lastActivity = 1
    · have heq : s.updateStreak now =
          ({ s with
              currentStreak := s.currentStreak + 1
              longestStreak := if s.currentStreak + 1 > s.longestStreak
                then s.currentStreak + 1 else s.longestStreak
              lastActivity := now },
           s.currentStreak + 1) := by
        unfold UserStats.updateStreak
        rw [if_neg h0, if_pos h1]
      rw [heq]
      exact ⟨fun hd => absurd hd (by omega),
        fun _ => ⟨rfl, by simp [Nat.lt_iff_add_one_le, gt_iff_lt], rfl, rfl⟩,
        fun hd => absurd hd (by omega), rfl⟩
    · have heq : s.updateStreak now =
          ({ s with currentStreak := 1, lastActivity := now }, 1) := by
        unfold UserStats.updateStreak
        rw [if_neg h0, if_neg h1]
      rw [heq]
      exact ⟨fun hd => absurd hd (by omega), fun hd => absurd hd h1,
        fun _ => ⟨rfl, rfl, rfl⟩, rfl⟩

/-- C4 counterexample: a same-calendar-day update (last activity at time
0, now 1000 ms later the same day) leaves `lastActivity` at 0 instead of
setting it to now, falsifying the claim that `lastActivity` is set to
now in every case. -/
theorem C4_counterexample :
    dayOf 1000 = dayOf streakUser.lastActivity ∧
    (streakUser.updateStreak 1000).1.lastActivity = 0 ∧
    ¬ (streakUser.updateStreak 1000).1.lastActivity = 1000 := by
  decide

/-- C4 witness: the theorem applied to a vote exactly one calendar day
after the last activity, incrementing the 3-day streak to 4. -/
theorem C4_witness :
    (streakUser.updateStreak 86400000).1.currentStreak = streakUser.currentStreak + 1 ∧
    (streakUser.updateStreak 86400000).1.lastActivity = 86400000 ∧
    (streakUser.updateStreak 86400000).2 = streakUser.currentStreak + 1 := by
  have h := (C4_updateStreak_spec streakUser 86400000).2.1 (by decide)
  exact ⟨h.1, h.2.2.1, h.2.2.2⟩

/-- C7 evaluation at the failing input: disconnecting the only user, whose
presence entry says it is in the room of question 5, removes the entry
and emits only the `user_offline` broadcast — no `user_left_room` event
reaches the room, because the handler deletes the entry before reading
its `currentRoom` back. -/
theorem C7_disconnect_eval :
    handleDisconnect [(1, inRoomEntry)] 1 7 1000 =
      ([], [⟨Room.broadcast, some 7, Payload.userOffline 1 1000⟩]) := by
  decide

theorem requirementValue_none_of_unrecognized (env : CountEnv) (user : UserStats)
    (req : BadgeRequirements) (h : req.type ∉ recognizedRequirementTypes) :
    requirementValue env user req = none := by
  simp only [recognizedRequirementTypes, List.mem_cons, List.mem_singleton,
    not_or] at h
  unfold requirementValue
  split <;> simp_all

/-- C8: a badge whose requirement type is outside the six recognized by
the qualification switch never qualifies (the check yields false), the
badge loop leaves the state untouched at that badge, and running the
pass with that badge in front is the same as running it on the remaining
badges alone — so the unrecognized badge aborts nothing. -/
theorem C8_unrecognized_type_skipped
    (env : CountEnv) (now : Int) (userId : Nat) (s : BadgeState)
    (badgeId : Nat) (b : BadgeDoc) (earned : List Nat) (rest : List Nat)
    (hfind : findBadge s badgeId = some b)
    (htype : b.requirements.type ∉ recognizedRequirementTypes) :
    checkUserQualification env now s badgeId = false ∧
    badgePassStep env now userId (s, earned) badgeId = (s, earned) ∧
    runBadgePass env now userId s (badgeId :: rest) = runBadgePass env now userId s rest := by
  have hval := requirementValue_none_of_unrecognized env s.user b.requirements htype
  have hcheck : checkUserQualification env now s badgeId = false := by
    unfold checkUserQualification
    rw [hfind]
    dsimp only
    rw [hval]
    dsimp only
    (repeat' split) <;> rfl
  have hstep : ∀ e, badgePassStep env now userId (s, e) badgeId = (s, e) := by
    intro e
    unfold badgePassStep
    rw [hcheck]
    simp
  refine ⟨hcheck, hstep earned, ?_⟩
  unfold runBadgePass
  rw [List.foldl_cons, hstep []]

/-- C8 witness: the theorem applied to the `time_based` badge (a schema
enum value the switch does not recognize) alone in the collection. -/
theorem C8_witness :
    checkUserQualification env0 0 timeBasedState 2 = false ∧
    badgePassStep env0 0 1 (timeBasedState, []) 2 = (timeBasedState, []) ∧
    runBadgePass env0 0 1 timeBasedState [2] = runBadgePass env0 0 1 timeBasedState [] :=
  C8_unrecognized_type_skipped env0 0 1 timeBasedState 2 timeBasedBadge [] []
    (by rfl) (by decide)

theorem C9_recipients_exclude (e : Emit) (members : List Nat) (sid : Nat)
    (hex : e.exclude = some sid) :
    sid ∉ e.recipients members := by
  unfold Emit.recipients
  rw [hex]
  simp

/-- C9: a `typing_start` from socket X in a question room is delivered as
`user_typing` to every other member of the room but never echoed to X,
while the `vote_update` emitted by a successful `submitVote` goes through
`io.to(...)` with no excluded socket, so its recipients are the full room
membership — the voter's own connection included. -/
theorem C9_typing_excluded_vote_update_included :
    (∀ (uid sock qid : Nat) (members : List Nat) (y : Nat),
      y ∈ members → y ≠ sock →
        y ∈ (handleTypingStart uid sock qid).recipients members) ∧
    (∀ (uid sock qid : Nat) (members : List Nat),
      sock ∉ (handleTypingStart uid sock qid).recipients members) ∧
    (∀ (env : CountEnv) (st : AppState) (now : Int) (userId questionId : Nat)
       (choice : Choice) (dt cf : Nat) (st1 : AppState) (r : SubmitOk),
      submitVote env st now userId questionId choice dt cf = .ok (st1, r) →
      ∃ e, r.emits.head? = some e ∧ e.room = .question questionId ∧
        e.exclude = none ∧ (∀ members, e.recipients members = members) ∧
        ∃ tv pa pb, e.payload = .voteUpdate questionId choice tv pa pb (some userId)) := by
  refine ⟨?_, ?_, ?_⟩
  · intro uid sock qid members y hy hne
    unfold handleTypingStart Emit.recipients
    simp only [List.mem_filter]
    exact ⟨hy, by simpa using hne⟩
  · intro uid sock qid members
    exact C9_recipients_exclude _ members sock rfl
  · intro env st now userId questionId choice dt cf st1 r h
    unfold submitVote at h
    dsimp only at h
    repeat' split at h
    all_goals try (cases h)
    all_goals exact ⟨_, rfl, rfl, rfl, fun members => rfl, _, _, _, rfl⟩

/-- C9 witness: with room members being sockets 7 and 8, socket 8
receives the `user_typing` event of socket 7 and socket 7 does not
receive its own. -/
theorem C9_witness :
    8 ∈ (handleTypingStart 1 7 5).recipients [7, 8] ∧
    7 ∉ (handleTypingStart 1 7 5).recipients [7, 8] :=
  ⟨C9_typing_excluded_vote_update_included.1 1 7 5 [7, 8] 8 (by decide) (by decide),
   C9_typing_excluded_vote_update_included.2.1 1 7 5 [7, 8]⟩

theorem check_true_not_held (env : CountEnv) (now : Int) (s : BadgeState) (badgeId : Nat)
    (h : checkUserQualification env now s badgeId = true) :
    s.user.badges.contains badgeId = false ∧ (findBadge s badgeId).isSome = true := by
  unfold checkUserQualification at h
  cases hfind : findBadge s badgeId with
  | none => rw [hfind] at h; cases h
  | some b =>
    rw [hfind] at h
    dsimp only at h
    refine ⟨?_, by simp [hfind]⟩
    cases hcb : s.user.badges.contains badgeId with
    | false => rfl
    | true =>
      rw [hcb] at h
      simp at h

theorem awardToUser_held (s : BadgeState) (now : Int) (userId badgeId : Nat)
    (hheld : s.user.badges.contains badgeId = true) :
    awardToUser s now userId badgeId = (s, false) := by
  unfold awardToUser
  cases hf : findBadge s badgeId with
  | none => rfl
  | some b =>
    dsimp only
    rw [hheld]
    simp

theorem awardToUser_not_held (s : BadgeState) (now : Int) (userId badgeId : Nat)
    (b : BadgeDoc) (hfind : findBadge s badgeId = some b)
    (hheld : s.user.badges.contains badgeId = false) :
    (awardToUser s now userId badgeId).1.user.badges = s.user.badges ++ [badgeId] ∧
    (awardToUser s now userId badgeId).1.user.points = s.user.points + b.points ∧
    (awardToUser s now userId badgeId).2 = true := by
  unfold awardToUser
  rw [hfind]
  dsimp only
  rw [hheld]
  simp

theorem badgePassStep_spec (env : CountEnv) (now : Int) (userId : Nat)
    (s : BadgeState) (earned : List Nat) (bid : Nat) :
    badgePassStep env now userId (s, earned) bid = (s, earned) ∨
    (s.user.badges.contains bid = false ∧
     (badgePassStep env now userId (s, earned) bid).1.user.badges = s.user.badges ++ [bid] ∧
     (badgePassStep env now userId (s, earned) bid).2 = earned ++ [bid]) := by
  by_cases hcheck : checkUserQualification env now s bid = true
  · right
    obtain ⟨hheld, hfind⟩ := check_true_not_held env now s bid hcheck
    obtain ⟨b, hb⟩ := Option.isSome_iff_exists.mp hfind
    obtain ⟨hbadges, -, hawarded⟩ := awardToUser_not_held s now userId bid b hb hheld
    have hstep : badgePassStep env now userId (s, earned) bid =
        ((awardToUser s now userId bid).1, earned ++ [bid]) := by
      unfold badgePassStep
      dsimp only
      rw [hcheck, hawarded]
      simp
    rw [hstep]
    exact ⟨hheld, hbadges, rfl⟩
  · left
    have hc : checkUserQualification env now s bid = false := by
      cases hcb : checkUserQualification env now s bid with
      | false => rfl
      | true => exact absurd hcb hcheck
    unfold badgePassStep
    dsimp only
    rw [hc]
    simp

theorem runBadgePass_fold_spec (env : CountEnv) (now : Int) (userId : Nat) :
    ∀ (ids : List Nat) (s : BadgeState) (earned : List Nat),
      ∃ d : List Nat,
        (ids.foldl (badgePassStep env now userId) (s, earned)).2 = earned ++ d ∧
        (ids.foldl (badgePassStep env now userId) (s, earned)).1.user.badges
          = s.user.badges ++ d ∧
        (∀ b ∈ d, s.user.badges.contains b = false) ∧
        d.Nodup := by
  intro ids
  induction ids with
  | nil =>
    intro s earned
    exact ⟨[], by simp, by simp, by simp, List.nodup_nil⟩
  | cons bid ids ih =>
    intro s earned
    rw [List.foldl_cons]
    rcases badgePassStep_spec env now userId s earned bid with hskip | ⟨hheld, hbadges, hearned⟩
    · rw [hskip]
      exact ih s earned
    · have hpeta : badgePassStep env now userId (s, earned) bid =
          ((badgePassStep env now userId (s, earned) bid).1, earned ++ [bid]) :=
        Prod.ext rfl hearned
      rw [hpeta]
      obtain ⟨d1, hd1e, hd1b, hd1f, hd1n⟩ :=
        ih (badgePassStep env now userId (s, earned) bid).1 (earned ++ [bid])
      refine ⟨bid :: d1, ?_, ?_, ?_, ?_⟩
      · rw [hd1e]
        simp
      · rw [hd1b, hbadges]
        simp
      · intro b hb
        rcases List.mem_cons.mp hb with rfl | hb1
        · exact hheld
        · have h3 := hd1f b hb1
          rw [hbadges] at h3
          simp at h3
          simpa using h3.1
      · refine List.nodup_cons.mpr ⟨?_, hd1n⟩
        intro hmem
        have h3 := hd1f bid hmem
        rw [hbadges] at h3
        simp at h3

theorem badgeAwardPass_spec (env : CountEnv) (now : Int) (userId : Nat) (s : BadgeState) :
    (badgeAwardPass env now userId s).1.user.badges
      = s.user.badges ++ (badgeAwardPass env now userId s).2 ∧
    (∀ b ∈ (badgeAwardPass env now userId s).2, s.user.badges.contains b = false) ∧
    (badgeAwardPass env now userId s).2.Nodup := by
  obtain ⟨d, hde, hdb, hdf, hdn⟩ := runBadgePass_fold_spec env now userId
      ((s.badges.filter (fun b => b.isActive)).map (fun b => b.id)) s []
  have he : (badgeAwardPass env now userId s).2 = d := by
    show (((s.badges.filter (fun b => b.isActive)).map (fun b => b.id)).foldl
        (badgePassStep env now userId) (s, [])).2 = d
    rw [hde, List.nil_append]
  have hb : (badgeAwardPass env now userId s).1.user.badges = s.user.badges ++ d := by
    show (((s.badges.filter (fun b => b.isActive)).map (fun b => b.id)).foldl
        (badgePassStep env now userId) (s, [])).1.user.badges = _
    exact hdb
  refine ⟨by rw [he, hb], ?_, ?_⟩
  · rw [he]
    exact hdf
  · rw [he]
    exact hdn

/-- C6: badge awarding is at most-once and all-or-nothing.  Awarding to a
user already holding the badge is a no-op returning false; a successful
award appends the badge once and adds exactly its reward points in the
same step.  Running the evaluation pass and then running it again (under
possibly different wall time and external counts) keeps the user's
earned-badge set duplicate-free, and no badge earned by the first pass is
earned again by the second, so no badge's reward points are added
twice. -/
theorem C6_badge_award_idempotent (env1 env2 : CountEnv) (now1 now2 : Int) (userId : Nat)
    (s : BadgeState) (hnodup : s.user.badges.Nodup) :
    (∀ (s2 : BadgeState) (now3 : Int) (uid bid : Nat),
      s2.user.badges.contains bid = true →
      awardToUser s2 now3 uid bid = (s2, false)) ∧
    (∀ (s2 : BadgeState) (now3 : Int) (uid bid : Nat) (b : BadgeDoc),
      findBadge s2 bid = some b → s2.user.badges.contains bid = false →
      (awardToUser s2 now3 uid bid).1.user.badges = s2.user.badges ++ [bid] ∧
      (awardToUser s2 now3 uid bid).1.user.points = s2.user.points + b.points ∧
      (awardToUser s2 now3 uid bid).2 = true) ∧
    (badgeAwardPass env1 now1 userId s).1.user.badges
      = s.user.badges ++ (badgeAwardPass env1 now1 userId s).2 ∧
    (badgeAwardPass env1 now1 userId s).1.user.badges.Nodup ∧
    (badgeAwardPass env2 now2 userId
        (badgeAwardPass env1 now1 userId s).1).1.user.badges.Nodup ∧
    (∀ b ∈ (badgeAwardPass env1 now1 userId s).2,
      b ∉ (badgeAwardPass env2 now2 userId (badgeAwardPass env1 now1 userId s).1).2) := by
  obtain ⟨hb1, hf1, hn1⟩ := badgeAwardPass_spec env1 now1 userId s
  obtain ⟨hb2, hf2, hn2⟩ :=
    badgeAwardPass_spec env2 now2 userId (badgeAwardPass env1 now1 userId s).1
  have hnd1 : (badgeAwardPass env1 now1 userId s).1.user.badges.Nodup := by
    rw [hb1]
    refine List.nodup_append.mpr ⟨hnodup, hn1, ?_⟩
    intro a ha hae
    have h2 : a ∉ s.user.badges := by simpa using hf1 a hae
    exact h2 ha
  have hnd2 : (badgeAwardPass env2 now2 userId
      (badgeAwardPass env1 now1 userId s).1).1.user.badges.Nodup := by
    rw [hb2]
    refine List.nodup_append.mpr ⟨hnd1, hn2, ?_⟩
    intro a ha hae
    have h2 : a ∉ (badgeAwardPass env1 now1 userId s).1.user.badges := by
      simpa using hf2 a hae
    exact h2 ha
  refine ⟨awardToUser_held, ?_, hb1, hnd1, hnd2, ?_⟩
  · intro s2 now3 uid bid b hfind hheld
    exact awardToUser_not_held s2 now3 uid bid b hfind hheld
  · intro b hbe1 hbe2
    have h2 : b ∉ (badgeAwardPass env1 now1 userId s).1.user.badges := by
      simpa using hf2 b hbe2
    exact h2 (by rw [hb1]; exact List.mem_append_right _ hbe1)

/-- C6 witness: a user with one vote and an empty badge set earns the
vote-count badge in a first pass; applying the theorem shows the badge
set stays duplicate-free over two passes and nothing earned in the first
pass is earned again by the second. -/
theorem C6_witness :
    (badgeAwardPass env0 0 1 qualifyingBadgeState).1.user.badges.Nodup ∧
    (badgeAwardPass env0 0 1
        (badgeAwardPass env0 0 1 qualifyingBadgeState).1).1.user.badges.Nodup ∧
    (∀ b ∈ (badgeAwardPass env0 0 1 qualifyingBadgeState).2,
      b ∉ (badgeAwardPass env0 0 1 (badgeAwardPass env0 0 1 qualifyingBadgeState).1).2) := by
  have h := C6_badge_award_idempotent env0 env0 0 0 1 qualifyingBadgeState (by decide)
  exact ⟨h.2.2.2.1, h.2.2.2.2.1, h.2.2.2.2.2⟩

theorem voteCreate_duplicate (votes : List VoteRecord) (v : VoteRecord)
    (h : ∃ w ∈ votes, w.userId = v.userId ∧ w.questionId = v.questionId) :
    voteCreate votes v = .error .duplicateKey := by
  have hany : votes.any (fun w => w.userId == v.userId && w.questionId == v.questionId) = true := by
    simp only [List.any_eq_true]
    obtain ⟨w, hw, h1, h2⟩ := h
    exact ⟨w, hw, by simp [h1, h2]⟩
  unfold voteCreate
  rw [hany]
  rfl

theorem voteCreate_ok_shape (votes : List VoteRecord) (v : VoteRecord)
    (votes1 : List VoteRecord) (h : voteCreate votes v = .ok votes1) :
    votes1 = votes ++ [v] ∧
    votes.any (fun w => w.userId == v.userId && w.questionId == v.questionId) = false := by
  unfold voteCreate at h
  cases hdup : votes.any (fun w => w.userId == v.userId && w.questionId == v.questionId) with
  | true =>
    rw [hdup] at h
    cases h
  | false =>
    rw [hdup] at h
    simp only [Bool.false_eq_true, if_false] at h
    injection h with h1
    exact ⟨h1.symm, rfl⟩

theorem OneVotePerPair_append (votes : List VoteRecord) (v : VoteRecord)
    (hinv : OneVotePerPair votes)
    (hnew : votes.any (fun w => w.userId == v.userId && w.questionId == v.questionId) = false) :
    OneVotePerPair (votes ++ [v]) := by
  intro u q
  have hcount := hinv u q
  unfold pairCount at hcount ⊢
  rw [List.countP_append]
  by_cases hv : (v.userId == u && v.questionId == q) = true
  · have hu : v.userId = u ∧ v.questionId = q := by simpa using hv
    have hz : votes.countP (fun w => w.userId == u && w.questionId == q) = 0 := by
      rw [List.countP_eq_zero]
      intro w hw hC
      have hC2 : w.userId = v.userId ∧ w.questionId = v.questionId := by
        have := (by simpa using hC : w.userId = u ∧ w.questionId = q)
        exact ⟨by rw [this.1, hu.1], by rw [this.2, hu.2]⟩
      have hany : votes.any (fun w => w.userId == v.userId && w.questionId == v.questionId) = true := by
        simp only [List.any_eq_true]
        exact ⟨w, hw, by simp [hC2.1, hC2.2]⟩
      rw [hany] at hnew
      cases hnew
    rw [hz]
    have h1 : List.countP (fun w => w.userId == u && w.questionId == q) [v] ≤ 1 := by
      simp [List.countP_cons, hu.1, hu.2]
    omega
  · have h1 : List.countP (fun w => w.userId == u && w.questionId == q) [v] = 0 := by
      rw [List.countP_eq_zero]
      intro w hw
      rcases List.mem_singleton.mp hw with rfl
      simpa using hv
    rw [h1]
    omega

theorem submitVote_ok_votes (env : CountEnv) (st : AppState) (now : Int)
    (userId questionId : Nat) (choice : Choice) (dt cf : Nat)
    (st1 : AppState) (r : SubmitOk)
    (h : submitVote env st now userId questionId choice dt cf = .ok (st1, r)) :
    voteCreate st.votes ⟨userId, questionId, choice, dt, cf, now⟩ = .ok st1.votes := by
  unfold submitVote at h
  dsimp only at h
  repeat' split at h
  all_goals try (cases h)
  all_goals assumption

/-- C1: the one-vote-per-(user, question) invariant.  It is preserved by
any sequence of vote submissions; a submission for a pair that already
has a Vote fails with the already-voted error (and, being an error,
creates nothing); and independently of that application-level check, the
storage layer itself — the unique compound index on
`(userId, questionId)` — rejects the insert of a duplicate pair with a
conflict. -/
theorem C1_one_vote_per_pair :
    (∀ (env : CountEnv) (st : AppState) (reqs : List SubmitReq),
      OneVotePerPair st.votes → OneVotePerPair (submitMany env st reqs).votes) ∧
    (∀ (env : CountEnv) (st : AppState) (now : Int) (userId questionId : Nat)
        (choice : Choice) (dt cf : Nat) (q : Question),
      lookupA st.questions questionId = some q →
      q.isActive = true → q.moderationApproved = true →
      (∃ w ∈ st.votes, w.userId = userId ∧ w.questionId = questionId) →
      submitVote env st now userId questionId choice dt cf = .error .alreadyVoted) ∧
    (∀ (votes : List VoteRecord) (v : VoteRecord),
      (∃ w ∈ votes, w.userId = v.userId ∧ w.questionId = v.questionId) →
      voteCreate votes v = .error .duplicateKey) := by
  refine ⟨?_, ?_, voteCreate_duplicate⟩
  · intro env st reqs
    induction reqs generalizing st with
    | nil => exact fun h => h
    | cons req reqs ih =>
      intro hinv
      unfold submitMany
      rw [List.foldl_cons]
      apply ih
      cases hsub : submitVote env st req.now req.userId req.questionId req.choice
          req.decisionTime req.confidence with
      | error e =>
        unfold applySubmit
        rw [hsub]
        exact hinv
      | ok p =>
        unfold applySubmit
        rw [hsub]
        obtain ⟨hvshape, hnew⟩ := voteCreate_ok_shape st.votes _ p.1.votes
          (submitVote_ok_votes env st req.now req.userId req.questionId req.choice
            req.decisionTime req.confidence p.1 p.2 (by rw [hsub]))
        rw [hvshape]
        exact OneVotePerPair_append st.votes _ hinv hnew
  · intro env st now userId questionId choice dt cf q hq hact happr hex
    have hany : (st.votes.any fun w => w.userId == userId && w.questionId == questionId) = true := by
      simp only [List.any_eq_true]
      obtain ⟨w, hw, h1, h2⟩ := hex
      exact ⟨w, hw, by simp [h1, h2]⟩
    unfold submitVote
    rw [hq]
    dsimp only
    rw [hact, happr, hany]
    rfl

/-- C1 witness: the already-voted rejection at a concrete state in which
user 1 has a stored Vote on the approved question 1. -/
theorem C1_witness :
    submitVote env0 votedState 0 1 1 Choice.optionB 0 3 = .error .alreadyVoted :=
  C1_one_vote_per_pair.2.1 env0 votedState 0 1 1 Choice.optionB 0 3 votedQuestion
    rfl rfl rfl ⟨vote11, by simp [votedState], rfl, rfl⟩

theorem updateStats_votesA (q : Question) : (updateStats q).votesA = q.votesA := by
  unfold updateStats
  dsimp only
  split <;> rfl

theorem updateStats_votesB (q : Question) : (updateStats q).votesB = q.votesB := by
  unfold updateStats
  dsimp only
  split <;> rfl

theorem any_filter_ne (l : List EmbeddedVote) (u : Nat) :
    (l.filter (fun v => v.userId != u)).any (fun v => v.userId == u) = false := by
  cases hres : (l.filter (fun v => v.userId != u)).any (fun v => v.userId == u) with
  | false => rfl
  | true =>
    obtain ⟨v, hv, hp⟩ := List.any_eq_true.mp hres
    have h2 := (List.mem_filter.mp hv).2
    simp at hp h2
    exact absurd hp h2

theorem countP_zero_of_any_eq_false {α : Type} (l : List α) (p : α → Bool)
    (h : l.any p = false) : l.countP p = 0 := by
  rw [List.countP_eq_zero]
  intro a ha hpa
  have h2 : l.any p = true := List.any_eq_true.mpr ⟨a, ha, hpa⟩
  rw [h2] at h
  cases h

theorem hasUserVoted_removeVote (q : Question) (u : Nat) :
    (q.removeVote u).hasUserVoted u = none := by
  unfold Question.removeVote Question.hasUserVoted
  rw [updateStats_votesA, updateStats_votesB]
  dsimp only
  rw [any_filter_ne, any_filter_ne]
  rfl

theorem lookupA_updateA {α : Type} (l : List (Nat × α)) (k : Nat) (v : α) (x : α)
    (h : lookupA l k = some x) : lookupA (updateA l k v) k = some v := by
  induction l with
  | nil => simp [lookupA] at h
  | cons p l ih =>
    by_cases hk : p.1 = k
    · simp [lookupA, updateA, hk]
    · rw [lookupA, if_neg hk] at h
      simp only [updateA, List.map_cons, if_neg hk]
      rw [lookupA, if_neg hk]
      exact ih h

theorem removeVote_addVote_spec (q : Question) (u : Nat) (c : Choice) (now : Int) (dt : Nat) :
    ∃ q2, (q.removeVote u).addVote u c now dt = .ok q2 ∧
      q2.hasUserVoted u = some c ∧
      q2.votesA.countP (fun v => v.userId == u) = (if c = .optionA then 1 else 0) ∧
      q2.votesB.countP (fun v => v.userId == u) = (if c = .optionB then 1 else 0) ∧
      0 < q2.stats.totalVotes ∧
      q2.stats.totalVotes = q2.votesA.length + q2.votesB.length ∧
      q2.stats.optionAPercentage
        = jsRound ((q2.votesA.length : ℚ) / (q2.stats.totalVotes : ℚ) * 100) ∧
      q2.stats.optionBPercentage
        = jsRound ((q2.votesB.length : ℚ) / (q2.stats.totalVotes : ℚ) * 100) := by
  have hAz : (q.votesA.filter (fun v => v.userId != u)).countP (fun v => v.userId == u) = 0 :=
    countP_zero_of_any_eq_false _ _ (any_filter_ne q.votesA u)
  have hBz : (q.votesB.filter (fun v => v.userId != u)).countP (fun v => v.userId == u) = 0 :=
    countP_zero_of_any_eq_false _ _ (any_filter_ne q.votesB u)
  set qr := q.removeVote u with hqr
  have hvA : qr.votesA = q.votesA.filter (fun v => v.userId != u) := by
    rw [hqr]
    unfold Question.removeVote
    rw [updateStats_votesA]
  have hvB : qr.votesB = q.votesB.filter (fun v => v.userId != u) := by
    rw [hqr]
    unfold Question.removeVote
    rw [updateStats_votesB]
  have hnone : qr.hasUserVoted u = none := by
    rw [hqr]
    exact hasUserVoted_removeVote q u
  unfold Question.addVote
  rw [hnone]
  simp only [Option.isSome_none, Bool.false_eq_true, if_false]
  cases c with
  | optionA =>
    dsimp only
    refine ⟨_, rfl, ?_, ?_, ?_, ?_, (updateStats_percentage_spec _).2.2.2, ?_, ?_⟩
    · unfold Question.hasUserVoted
      rw [updateStats_votesA]
      dsimp only
      rw [hvA]
      have hA : ((q.votesA.filter (fun v => v.userId != u)) ++ [(⟨u, now, dt⟩ : EmbeddedVote)]).any
          (fun v => v.userId == u) = true := by
        simp [List.any_append]
      rw [hA]
      rfl
    · rw [updateStats_votesA]
      dsimp only
      rw [hvA, List.countP_append, hAz]
      simp [List.countP_cons]
    · rw [updateStats_votesB]
      dsimp only
      rw [hvB]
      simp
    · rw [(updateStats_percentage_spec _).2.2.2, updateStats_votesA]
      dsimp only
      simp
    · refine ((updateStats_percentage_spec _).2.1 ?_).2.1
      rw [(updateStats_percentage_spec _).2.2.2, updateStats_votesA]
      dsimp only
      simp
    · refine ((updateStats_percentage_spec _).2.1 ?_).2.2
      rw [(updateStats_percentage_spec _).2.2.2, updateStats_votesA]
      dsimp only
      simp
  | optionB =>
    dsimp only
    refine ⟨_, rfl, ?_, ?_, ?_, ?_, (updateStats_percentage_spec _).2.2.2, ?_, ?_⟩
    · unfold Question.hasUserVoted
      rw [updateStats_votesA, updateStats_votesB]
      dsimp only
      rw [hvA, hvB, any_filter_ne]
      have hB : ((q.votesB.filter (fun v => v.userId != u)) ++ [(⟨u, now, dt⟩ : EmbeddedVote)]).any
          (fun v => v.userId == u) = true := by
        simp [List.any_append]
      rw [hB]
      rfl
    · rw [updateStats_votesA]
      dsimp only
      rw [hvA]
      simp
    · rw [updateStats_votesB]
      dsimp only
      rw [hvB, List.countP_append, hBz]
      simp [List.countP_cons]
    · rw [(updateStats_percentage_spec _).2.2.2, updateStats_votesB]
      dsimp only
      simp
    · refine ((updateStats_percentage_spec _).2.1 ?_).2.1
      rw [(updateStats_percentage_spec _).2.2.2, updateStats_votesB]
      dsimp only
      simp
    · refine ((updateStats_percentage_spec _).2.1 ?_).2.2
      rw [(updateStats_percentage_spec _).2.2.2, updateStats_votesB]
      dsimp only
      simp

/-- C5: `changeVote` fails with the no-existing-vote error when no Vote is
stored for the pair; fails with the edit-window-expired error when the
vote is older than 5 minutes; and otherwise succeeds, leaving the user
with exactly one tally entry, holding the new choice (the old choice's
contribution removed), with the question's stats recomputed from the new
arrays, returning the updated Vote and emitting the recomputed stats. -/
theorem C5_changeVote_spec (st : AppState) (now : Int) (userId questionId : Nat)
    (choice : Choice) (ndt : Option Nat) :
    (st.votes.find? (fun w => w.userId == userId && w.questionId == questionId) = none →
      changeVote st now userId questionId choice ndt = .error .noVoteToChange) ∧
    (∀ v, st.votes.find? (fun w => w.userId == userId && w.questionId == questionId) = some v →
      changeLimit < now - v.createdAt →
      changeVote st now userId questionId choice ndt = .error .editWindowExpired) ∧
    (∀ (v : VoteRecord) (q : Question),
      st.votes.find? (fun w => w.userId == userId && w.questionId == questionId) = some v →
      ¬ changeLimit < now - v.createdAt →
      lookupA st.questions questionId = some q →
      ∃ (st1 : AppState) (res : ChangeOk) (q2 : Question),
        changeVote st now userId questionId choice ndt = .ok (st1, res) ∧
        res.vote.choice = choice ∧
        res.vote.userId = v.userId ∧
        res.vote.questionId = v.questionId ∧
        lookupA st1.questions questionId = some q2 ∧
        q2.hasUserVoted userId = some choice ∧
        q2.votesA.countP (fun w => w.userId == userId) = (if choice = .optionA then 1 else 0) ∧
        q2.votesB.countP (fun w => w.userId == userId) = (if choice = .optionB then 1 else 0) ∧
        0 < q2.stats.totalVotes ∧
        q2.stats.totalVotes = q2.votesA.length + q2.votesB.length ∧
        q2.stats.optionAPercentage
          = jsRound ((q2.votesA.length : ℚ) / (q2.stats.totalVotes : ℚ) * 100) ∧
        q2.stats.optionBPercentage
          = jsRound ((q2.votesB.length : ℚ) / (q2.stats.totalVotes : ℚ) * 100) ∧
        res.emits = [⟨Room.question questionId, none,
          Payload.voteUpdate questionId choice q2.stats.totalVotes
            q2.stats.optionAPercentage q2.stats.optionBPercentage none⟩]) := by
  refine ⟨?_, ?_, ?_⟩
  · intro hnone
    unfold changeVote
    rw [hnone]
  · intro v hfound hold
    unfold changeVote
    rw [hfound]
    dsimp only
    rw [if_pos hold]
  · intro v q hfound hwithin hq
    obtain ⟨q2, hq2, hvoted, hcA, hcB, hT0, hTlen, hpA, hpB⟩ :=
      removeVote_addVote_spec q userId choice now 0
    unfold changeVote
    rw [hfound]
    dsimp only
    rw [if_neg hwithin, hq]
    dsimp only
    rw [hq2]
    dsimp only
    exact ⟨_, _, q2, rfl, rfl, rfl, rfl,
      lookupA_updateA st.questions questionId q2 q hq,
      hvoted, hcA, hcB, hT0, hTlen, hpA, hpB, rfl⟩

/-- C5 witness: user 1 changes the vote on question 1 to optionB within
the 5-minute window; the call succeeds and the returned Vote carries the
new choice. -/
theorem C5_witness :
    (changeVote votedState 1000 1 1 Choice.optionB none).toOption.map
      (fun p => p.2.vote.choice) = some Choice.optionB := by
  obtain ⟨st1, res, q2, hok, hchoice, -⟩ :=
    (C5_changeVote_spec votedState 1000 1 1 Choice.optionB none).2.2 vote11 votedQuestion
      rfl (by decide) rfl
  rw [hok]
  simp [Except.toOption, hchoice]

/-- C10: a successful `changeVote` never touches the User or Badge
collections: the voting user's stored stats — points, experience, level,
votesCount, streaks, and earned badges — are exactly as before the
call. -/
theorem C10_changeVote_frame (st : AppState) (now : Int) (userId questionId : Nat)
    (choice : Choice) (ndt : Option Nat) (st1 : AppState) (res : ChangeOk)
    (h : changeVote st now userId questionId choice ndt = .ok (st1, res)) :
    st1.users = st.users ∧ st1.badges = st.badges ∧
    lookupA st1.users userId = lookupA st.users userId := by
  unfold changeVote at h
  dsimp only at h
  repeat' split at h
  all_goals try (cases h)
  all_goals exact ⟨rfl, rfl, rfl⟩

/-- C10 witness: the concrete successful vote change of user 1 on
question 1 leaves the Users and Badges collections of the state
unchanged. -/
theorem C10_witness :
    (changeVote votedState 1000 1 1 Choice.optionB none).toOption.map (fun p => p.1.users)
      = some votedState.users ∧
    (changeVote votedState 1000 1 1 Choice.optionB none).toOption.map (fun p => p.1.badges)
      = some votedState.badges := by
  obtain ⟨p, hp⟩ : ∃ p, changeVote votedState 1000 1 1 Choice.optionB none = .ok p := ⟨_, rfl⟩
  obtain ⟨h1, h2, -⟩ := C10_changeVote_frame votedState 1000 1 1 Choice.optionB none p.1 p.2
    (by rw [hp])
  rw [hp]
  simp [Except.toOption, h1, h2]

end WYR
